import Mathlib

/-!
Shallow embedding of the ML Builder frontend wizard (`components/StepWizard.tsx`
and its constants) together with the parts of the pipeline wire contract it
exercises. Numbers are modelled as rationals, JavaScript records as ordered
association lists, and the component's `useState` cells as explicit state that
the handler functions transform.
-/

namespace MLBuilder

/-! ## Step types (source: `type PreprocessingType / ModelType / StepType`) -/

/-- Source union type `PreprocessingType`. -/
inductive PreprocessingType
  | standard_scaler
  | min_max_scaler
  | drop_nulls
deriving DecidableEq, Repr

/-- Source union type `ModelType`. -/
inductive ModelType
  | logistic_regression
  | decision_tree_classifier
deriving DecidableEq, Repr

/-- Source union type `StepType = PreprocessingType | 'train_test_split' | ModelType`. -/
inductive StepType
  | standard_scaler
  | min_max_scaler
  | drop_nulls
  | train_test_split
  | logistic_regression
  | decision_tree_classifier
deriving DecidableEq, Repr

/-- The inclusion of `PreprocessingType` into `StepType` that the TypeScript
union performs implicitly. -/
def PreprocessingType.toStepType : PreprocessingType → StepType
  | .standard_scaler => .standard_scaler
  | .min_max_scaler => .min_max_scaler
  | .drop_nulls => .drop_nulls

/-- The inclusion of `ModelType` into `StepType`. -/
def ModelType.toStepType : ModelType → StepType
  | .logistic_regression => .logistic_regression
  | .decision_tree_classifier => .decision_tree_classifier

/-- Enumeration of the whole (closed) `StepType` universe. -/
def allStepTypes : List StepType :=
  [.standard_scaler, .min_max_scaler, .drop_nulls,
   .train_test_split, .logistic_regression, .decision_tree_classifier]

/-- Whether a step type is one of the three preprocessing types. -/
def StepType.isPreprocessingStep : StepType → Bool
  | .standard_scaler => true
  | .min_max_scaler => true
  | .drop_nulls => true
  | _ => false

/-- Whether a step type is one of the two model types. -/
def StepType.isModelStep : StepType → Bool
  | .logistic_regression => true
  | .decision_tree_classifier => true
  | _ => false

/-- The three kinds of the spec's partition of step types. -/
inductive StepKind
  | preprocessing
  | split
  | model
deriving DecidableEq, Repr

/-- Modelled from the spec: the partition of the step-type universe into
preprocessing, split and model kinds (spec section 3, `PipelineStep`). Written
from the spec's words, to be compared with the category the code's step
templates declare. -/
def specKind : StepType → StepKind
  | .standard_scaler => .preprocessing
  | .min_max_scaler => .preprocessing
  | .drop_nulls => .preprocessing
  | .train_test_split => .split
  | .logistic_regression => .model
  | .decision_tree_classifier => .model

/-! ## Parameter records and pipeline steps -/

/-- A JavaScript value stored in a step's `params` record: the source stores
numbers (`test_size`, `C`, `max_depth`, `axis`) and strings (`feature_range`). -/
inductive ParamValue
  | num (q : ℚ)
  | str (s : String)
deriving DecidableEq, Repr

/-- An ordered JavaScript record of parameters. -/
abbrev Params := List (String × ParamValue)

/-- JavaScript object spread update `{ ...ps, [k]: v }`: an existing key keeps
its position and gets the new value; a new key is appended. -/
def setParam (ps : Params) (k : String) (v : ParamValue) : Params :=
  if ps.any (fun p => p.1 == k) then
    ps.map (fun p => if p.1 == k then (k, v) else p)
  else
    ps ++ [(k, v)]

/-- Source interface `PipelineStep`. -/
structure PipelineStep where
  id : String
  type : StepType
  params : Params
deriving DecidableEq, Repr

/-! ## STEP_TEMPLATES (source lines 38-75) -/

/-- The category field of a step template; the source type is the two-element
union `'preprocessing' | 'model'`. -/
inductive TemplateCategory
  | preprocessing
  | model
deriving DecidableEq, Repr

/-- A step template. The presentational `description` string of the source is
omitted; `label`, `category` and `defaultParams` are embedded verbatim. -/
structure StepTemplate where
  label : String
  category : TemplateCategory
  defaultParams : Params
deriving DecidableEq, Repr

/-- Source constant `STEP_TEMPLATES`, a record keyed by `StepType`. -/
def STEP_TEMPLATES : StepType → StepTemplate
  | .standard_scaler =>
      { label := "Standard Scaler", category := .preprocessing, defaultParams := [] }
  | .min_max_scaler =>
      { label := "Min Max Scaler", category := .preprocessing,
        defaultParams := [("feature_range", .str "0,1")] }
  | .drop_nulls =>
      { label := "Drop Missing Values", category := .preprocessing,
        defaultParams := [("axis", .num 0)] }
  | .train_test_split =>
      { label := "Train/Test Split", category := .preprocessing,
        defaultParams := [("test_size", .num 0.2)] }
  | .logistic_regression =>
      { label := "Logistic Regression", category := .model,
        defaultParams := [("C", .num 1)] }
  | .decision_tree_classifier =>
      { label := "Decision Tree Classifier", category := .model,
        defaultParams := [("max_depth", .num 5)] }

/-- The kind a declared template category corresponds to, for comparison with
the spec's three-way partition. -/
def kindOfCategory : TemplateCategory → StepKind
  | .preprocessing => .preprocessing
  | .model => .model

/-! ## Wizard steps and navigation (source lines 77-83, 126, 138-142, 455) -/

/-- Source constant `WIZARD_STEPS` (id and title of each wizard page). -/
def WIZARD_STEPS : List (Nat × String) :=
  [(1, "Data Source"), (2, "Preprocessing"), (3, "Train/Test Split"),
   (4, "Model Selection"), (5, "Results")]

/-- Initial value of the `currentStep` state cell (`useState(1)`). -/
def initialCurrentStep : Nat := 1

/-- `handleNext`: increments `currentStep` only while it is below
`WIZARD_STEPS.length` (the `runPipeline` call it also makes does not touch
`currentStep`). -/
def handleNextStep (cur : Nat) : Nat :=
  if cur < WIZARD_STEPS.length then cur + 1 else cur

/-- `handleBack`: decrements `currentStep` only while it is above 1. -/
def handleBackStep (cur : Nat) : Nat :=
  if 1 < cur then cur - 1 else cur

/-- The events that can change the `currentStep` state: the Next button, the
Back button, and the Start Over button (`setCurrentStep(1)`). -/
inductive WizardEvent
  | next
  | back
  | startOver
deriving DecidableEq, Repr

/-- One transition of the `currentStep` state machine. -/
def wizardTransition (cur : Nat) : WizardEvent → Nat
  | .next => handleNextStep cur
  | .back => handleBackStep cur
  | .startOver => 1

/-- The `currentStep` value after a sequence of button events from the initial
state. -/
def wizardAfter (evs : List WizardEvent) : Nat :=
  evs.foldl wizardTransition initialCurrentStep

/-! ## Preprocessing-step and model state (source lines 127-148) -/

/-- Initial value of the `testSize` state cell (`useState<number>(0.2)`). -/
def initialTestSize : ℚ := 0.2

/-- `addPreprocessingStep`: appends a step of the given preprocessing type with
a copy of the template's default parameters. The random id the source draws
from `Math.random` is passed in explicitly. -/
def addPreprocessingStep (steps : List PipelineStep) (newId : String)
    (t : PreprocessingType) : List PipelineStep :=
  steps ++ [{ id := newId, type := t.toStepType,
              params := (STEP_TEMPLATES t.toStepType).defaultParams }]

/-- `removePreprocessingStep`: filters out the step with the given id. -/
def removePreprocessingStep (steps : List PipelineStep) (theId : String) :
    List PipelineStep :=
  steps.filter (fun s => !(s.id == theId))

/-- `updatePreprocessingParam`: rewrites the params record of the step with the
given id. -/
def updatePreprocessingParam (steps : List PipelineStep) (theId : String)
    (k : String) (v : ParamValue) : List PipelineStep :=
  steps.map (fun s => if s.id == theId then { s with params := setParam s.params k v } else s)

/-- `selectModel`: replaces the selected model with a fresh step of the chosen
model type carrying the template's default parameters. -/
def selectModel (t : ModelType) : PipelineStep :=
  { id := "model-step", type := t.toStepType,
    params := (STEP_TEMPLATES t.toStepType).defaultParams }

/-- `updateModelParam`: updates a parameter of the selected model when one is
selected; a no-op otherwise (`selectedModel && ...`). -/
def updateModelParam (sel : Option PipelineStep) (k : String) (v : ParamValue) :
    Option PipelineStep :=
  match sel with
  | some m => some { m with params := setParam m.params k v }
  | none => none

/-- The UI actions that can change the `preprocessingSteps` state cell:
the three add buttons, the remove button, a parameter edit, and the Change
button that resets the dataset (which also clears the step list, line 211). -/
inductive PreprocOp
  | add (newId : String) (t : PreprocessingType)
  | remove (theId : String)
  | update (theId : String) (k : String) (v : ParamValue)
  | changeDataset
deriving DecidableEq, Repr

/-- Apply one `preprocessingSteps` action. -/
def applyPreprocOp (steps : List PipelineStep) : PreprocOp → List PipelineStep
  | .add i t => addPreprocessingStep steps i t
  | .remove i => removePreprocessingStep steps i
  | .update i k v => updatePreprocessingParam steps i k v
  | .changeDataset => []

/-- The `preprocessingSteps` state after a sequence of actions from the empty
initial state (`useState<PipelineStep[]>([])`). -/
def preprocStateAfter (ops : List PreprocOp) : List PipelineStep :=
  ops.foldl applyPreprocOp []

/-- The UI actions that can change the `selectedModel` state cell: a model card
click, a hyperparameter edit, and the Change button that resets it to null. -/
inductive ModelOp
  | select (t : ModelType)
  | updateParam (k : String) (v : ParamValue)
  | changeDataset
deriving DecidableEq, Repr

/-- Apply one `selectedModel` action. -/
def applyModelOp (sel : Option PipelineStep) : ModelOp → Option PipelineStep
  | .select t => some (selectModel t)
  | .updateParam k v => updateModelParam sel k v
  | .changeDataset => none

/-- The `selectedModel` state after a sequence of actions from the null initial
state (`useState<PipelineStep | null>(null)`). -/
def modelStateAfter (ops : List ModelOp) : Option PipelineStep :=
  ops.foldl applyModelOp none

/-! ## runPipeline and the submitted step list (source lines 164-180) -/

/-- The split step `runPipeline` inserts:
`{ id: 'split', type: 'train_test_split', params: { test_size: testSize } }`. -/
def splitStep (testSize : ℚ) : PipelineStep :=
  { id := "split", type := .train_test_split,
    params := [("test_size", .num testSize)] }

/-- The `fullSteps` list `runPipeline` submits:
`[...preprocessingSteps, splitStep, selectedModel]`. -/
def fullSteps (pre : List PipelineStep) (testSize : ℚ) (modelStep : PipelineStep) :
    List PipelineStep :=
  pre ++ [splitStep testSize, modelStep]

/-! ## Pipeline results and the run-pipeline fetch (source lines 18-24, 164-180) -/

/-- A value of the `metrics: Record<string, any>` mapping of a result: the
backend sends the accuracy as a string, sample counts as numbers, feature
importances as an array of `{feature, importance}` objects, and the confusion
matrix as an array of numeric rows; `null` covers an explicit JSON null. -/
inductive MetricValue
  | str (s : String)
  | num (q : ℚ)
  | importances (l : List (String × ℚ))
  | matrix (m : List (List ℚ))
  | null
deriving DecidableEq, Repr

/-- Source interface `PipelineResult`. -/
structure PipelineResult where
  success : Bool
  message : String
  metrics : List (String × MetricValue)
  logs : List String
  model_path : Option String := none
deriving DecidableEq, Repr

/-- JavaScript property lookup `metrics.k`: the value of the first binding of
`k`, or `undefined` (here `none`) when the key is absent. -/
def getMetric (metrics : List (String × MetricValue)) (k : String) :
    Option MetricValue :=
  (metrics.find? (fun p => p.1 == k)).map (fun p => p.2)

/-- JavaScript truthiness of a metric value: the empty string and the number 0
are falsy; arrays are objects and hence truthy even when empty; null is
falsy. -/
def MetricValue.truthy : MetricValue → Bool
  | .str s => !s.isEmpty
  | .num q => !(q == 0)
  | .importances _ => true
  | .matrix _ => true
  | .null => false

/-- JavaScript truthiness of a possibly-absent property (`undefined` is
falsy). -/
def jsTruthyOpt : Option MetricValue → Bool
  | some v => v.truthy
  | none => false

/-- Outcome of the `fetch` in `runPipeline`: a parsed JSON body when `res.ok`,
an HTTP error status when `!res.ok` (the code then throws
`Server status: ${res.status}`), or a thrown network/parse error with its
message. -/
inductive FetchOutcome
  | ok (body : PipelineResult)
  | httpError (status : Nat)
  | networkError (msg : String)
deriving DecidableEq, Repr

/-- The `results` state `runPipeline` leaves behind for a completed request:
the parsed body on success of the fetch, and on any thrown error the fallback
`{ success: false, message: 'Failed to execute pipeline', metrics: {},
logs: ['Error: ...'] }`. -/
def runPipelineResult : FetchOutcome → PipelineResult
  | .ok body => body
  | .httpError status =>
      { success := false, message := "Failed to execute pipeline",
        metrics := [],
        logs := ["Error: Server status: " ++ toString status] }
  | .networkError msg =>
      { success := false, message := "Failed to execute pipeline",
        metrics := [],
        logs := ["Error: " ++ msg] }

/-- Whether the pipeline run failed: the request itself errored, or the server
responded with a body whose `success` flag is false. -/
def pipelineRunFailed : FetchOutcome → Bool
  | .ok body => !body.success
  | .httpError _ => true
  | .networkError _ => true

/-- Whether the failure was a request error (thrown fetch or non-ok status)
rather than a server-reported failure body. -/
def isRequestError : FetchOutcome → Bool
  | .ok _ => false
  | .httpError _ => true
  | .networkError _ => true

/-! ## Feature-importance rendering (source lines 399-419) -/

/-- `Math.max(...xs)` over a spread array: `none` models the negative-infinity
result on an empty array. -/
def jsMathMax : List ℚ → Option ℚ
  | [] => none
  | x :: xs => some (xs.foldl max x)

/-- `maxVal` of the feature-importance block: the maximum over the FULL
`results.metrics.feature_importance` list (the `.map` inside `Math.max` runs on
the un-sliced list). Each importance item is a `(feature, importance)` pair. -/
def importanceMaxVal (l : List (String × ℚ)) : Option ℚ :=
  jsMathMax (l.map (fun f => f.2))

/-- The rendered rows of the feature-importance block: the list is truncated
with `.slice(0, 10)` and every row's bar is scaled by `maxVal` computed over
the full list. A row is (feature name, importance, scale maximum). -/
def renderedImportanceRows (l : List (String × ℚ)) :
    List (String × ℚ × Option ℚ) :=
  (l.take 10).map (fun f => (f.1, f.2, importanceMaxVal l))

/-! ## Correlation heatmap rendering (source lines 270-288) -/

/-- The `correlations` field of `DatasetMetadata`. -/
structure Correlations where
  labels : List String
  data : List (List ℚ)
deriving DecidableEq, Repr

/-- What the correlation card shows in place of the heatmap grid. -/
inductive CorrView
  | tooMany (notice : String)
  | grid (columns : Nat) (cells : List ℚ)
deriving DecidableEq, Repr

/-- The correlation card: heading plus either the notice or the grid. -/
structure CorrSection where
  heading : String
  view : CorrView
deriving DecidableEq, Repr

/-- The rendering decision of the correlation card: when
`correlations.labels.length > 8` only the notice `Too many features.` is shown;
otherwise a grid with `labels.length` columns containing `data.flat()`. -/
def renderCorrSection (c : Correlations) : CorrSection :=
  { heading := "Correlation Heatmap",
    view :=
      if 8 < c.labels.length then
        .tooMany "Too many features."
      else
        .grid c.labels.length c.data.flatten }

/-! ## Data-preview table rendering (source lines 219-241) -/

/-- A cell of the uploaded frame before profiling: missing, a non-finite
number (NaN or an infinity), a finite number, or text. -/
inductive RawCell
  | missing
  | nonfinite
  | finite (q : ℚ)
  | text (s : String)
deriving DecidableEq, Repr

/-- A JSON cell value as it arrives at the frontend preview table. -/
inductive CellValue
  | null
  | num (q : ℚ)
  | str (s : String)
deriving DecidableEq, Repr

/-- Modelled from the spec: the backend Dataset Profiler (not part of the
frontend sources) serializes the first rows as row-maps in which non-finite or
missing values are emptied out (spec section 4.1, Preview); they arrive at the
frontend as JSON nulls. Finite numbers and text pass through. -/
def serializeCell : RawCell → CellValue
  | .missing => .null
  | .nonfinite => .null
  | .finite q => .num q
  | .text s => .str s

/-- Modelled from the spec: the profiler serializes one row preserving column
order. -/
def serializeRow (row : List (String × RawCell)) : List (String × CellValue) :=
  row.map (fun p => (p.1, serializeCell p.2))

/-- The table cell text `val?.toString() ?? ''`: null renders as the empty
string, any present value as its string conversion (Lean's `toString` on the
rational stands in for JavaScript number-to-string). -/
def renderCell : CellValue → String
  | .null => ""
  | .num q => toString q
  | .str s => s

/-- One rendered table row: `Object.values(row).map(...)`, which walks the
row-map's keys in insertion order. -/
def renderRow (row : List (String × CellValue)) : List String :=
  row.map (fun p => renderCell p.2)

/-- The rendered header: `Object.keys(preview[0])` in insertion order. -/
def renderHeader (row : List (String × CellValue)) : List String :=
  row.map (fun p => p.1)

/-! ## ResultExplanation grading (source lines 85-107) -/

/-- A JavaScript number as produced by `parseFloat`: an infinity or a finite
value. A NaN result is modelled as `Option.none` at the call site. -/
inductive JsNum
  | posInf
  | negInf
  | finite (q : ℚ)
deriving DecidableEq, Repr

/-- `accuracy.replace('%', '')`: with a string pattern, JavaScript `replace`
removes only the first occurrence. -/
def removeFirstPercent : List Char → List Char
  | [] => []
  | c :: cs => if c = '%' then cs else c :: removeFirstPercent cs

/-- String form of `removeFirstPercent`. -/
def replacePercent (s : String) : String :=
  String.mk (removeFirstPercent s.toList)

/-- The longest run of decimal digits at the head of the characters, as digit
values, together with the remaining characters. -/
def takeDigits : List Char → List ℕ × List Char
  | [] => ([], [])
  | c :: cs =>
      if c.isDigit then
        let r := takeDigits cs
        ((c.toNat - 48) :: r.1, r.2)
      else ([], c :: cs)

/-- Value of an integer digit run. -/
def digitsVal (ds : List ℕ) : ℚ :=
  ds.foldl (fun a d => a * 10 + (d : ℚ)) 0

/-- Value of a fractional digit run (the digits after the decimal point). -/
def fracVal (ds : List ℕ) : ℚ :=
  ds.foldr (fun d a => ((d : ℚ) + a) / 10) 0

/-- Integer value of a digit run, for exponents. -/
def intDigitsVal (ds : List ℕ) : ℤ :=
  ds.foldl (fun a d => a * 10 + (d : ℤ)) 0

/-- An unsigned decimal literal prefix `digits [. digits]` or `. digits`;
`none` when no digit is present. Returns the value and the rest. -/
def parseUnsigned (cs : List Char) : Option (ℚ × List Char) :=
  let ip := takeDigits cs
  match ip.2 with
  | '.' :: rest2 =>
      let fp := takeDigits rest2
      if ip.1.isEmpty && fp.1.isEmpty then none
      else some (digitsVal ip.1 + fracVal fp.1, fp.2)
  | _ => if ip.1.isEmpty then none else some (digitsVal ip.1, ip.2)

/-- An optional exponent part `e|E [+|-] digits`; an exponent marker not
followed by at least one digit is not part of the literal and contributes
exponent 0, as in JavaScript `parseFloat`. -/
def parseExponentPart (cs : List Char) : ℤ :=
  match cs with
  | c :: rest =>
      if c = 'e' ∨ c = 'E' then
        match rest with
        | '+' :: rest2 =>
            (match takeDigits rest2 with
             | ([], _) => 0
             | (ds, _) => intDigitsVal ds)
        | '-' :: rest2 =>
            (match takeDigits rest2 with
             | ([], _) => 0
             | (ds, _) => -(intDigitsVal ds))
        | _ =>
            (match takeDigits rest with
             | ([], _) => 0
             | (ds, _) => intDigitsVal ds)
      else 0
  | [] => 0

/-- Scale a mantissa by a power of ten. -/
def applyExponent (v : ℚ) (e : ℤ) : ℚ :=
  if 0 ≤ e then v * 10 ^ e.toNat else v / 10 ^ (-e).toNat

/-- Whether the first list of characters is an initial run of the second. -/
def startsWithChars : List Char → List Char → Bool
  | [], _ => true
  | _ :: _, [] => false
  | a :: as, b :: bs => a == b && startsWithChars as bs

/-- JavaScript `parseFloat`: skip leading whitespace, read an optional sign,
then either `Infinity` or the longest decimal-literal prefix (with optional
fraction and exponent); `none` models the NaN result when no literal starts
the string. -/
def jsParseFloat (s : String) : Option JsNum :=
  let cs := s.toList.dropWhile Char.isWhitespace
  let signed : Bool × List Char :=
    match cs with
    | '-' :: r => (true, r)
    | '+' :: r => (false, r)
    | r => (false, r)
  if startsWithChars "Infinity".toList signed.2 then
    some (if signed.1 then JsNum.negInf else JsNum.posInf)
  else
    match parseUnsigned signed.2 with
    | none => none
    | some vr =>
        let v := applyExponent vr.1 (parseExponentPart vr.2)
        some (JsNum.finite (if signed.1 then -v else v))

/-- JavaScript `accVal >= bound` where `accVal` may be NaN (`none`): every
comparison with NaN is false. -/
def jsGe (v : Option JsNum) (bound : ℚ) : Bool :=
  match v with
  | none => false
  | some .posInf => true
  | some .negInf => false
  | some (.finite q) => decide (bound ≤ q)

/-- The `grade` chosen by `ResultExplanation`: `Needs Improvement` by default,
`Excellent` when `accVal >= 90`, else `Good` when `accVal >= 70`. The color and
message strings set alongside the grade are determined by the same branch and
are not separately modelled. -/
def resultExplanationGrade (accuracy : String) : String :=
  let accVal := jsParseFloat (replacePercent accuracy)
  if jsGe accVal 90 then "Excellent"
  else if jsGe accVal 70 then "Good"
  else "Needs Improvement"

/-! ## The results page (source lines 382-448) -/

/-- A section of the successful results view. -/
inductive ResultSection
  | explanation (accuracy : MetricValue)
  | metricCards (acc train test : Option MetricValue)
  | importanceSec (v : MetricValue)
  | confusionSec (v : MetricValue)
  | downloadBtn (path : String)
deriving DecidableEq, Repr

/-- The JSX guard `value && <Section/>`: the section is emitted exactly when
the (possibly absent) value is truthy. -/
def truthyChunk (v : Option MetricValue) (mk : MetricValue → ResultSection) :
    List ResultSection :=
  match v with
  | some w => if w.truthy then [mk w] else []
  | none => []

/-- The JSX guard `results.model_path && <button/>` (a non-empty string is
truthy). -/
def downloadChunk (mp : Option String) : List ResultSection :=
  match mp with
  | some p => if !p.isEmpty then [ResultSection.downloadBtn p] else []
  | none => []

/-- The sections of the success branch, in page order: the explanation and the
importance/confusion blocks are each guarded by JavaScript truthiness of their
metric key, the metric cards row is unconditional, and the download button by
truthiness of `model_path`. -/
def successSections (r : PipelineResult) : List ResultSection :=
  truthyChunk (getMetric r.metrics "Accuracy") ResultSection.explanation ++
  [ResultSection.metricCards (getMetric r.metrics "Accuracy")
    (getMetric r.metrics "train_samples") (getMetric r.metrics "test_samples")] ++
  truthyChunk (getMetric r.metrics "feature_importance") ResultSection.importanceSec ++
  truthyChunk (getMetric r.metrics "confusion_matrix") ResultSection.confusionSec ++
  downloadChunk r.model_path

/-- An item of the rendered results page. -/
inductive RenderedItem
  | sec (s : ResultSection)
  | failureBanner (msg : String)
  | logLine (line : String)
deriving DecidableEq, Repr

/-- The results page for a completed run (`isRunning` false, `results` set):
the success sections or the red failure banner with `results.message`, and in
BOTH cases the logs console listing every line of `results.logs` (line 445 sits
outside the success/failure ternary). -/
def renderResults (r : PipelineResult) : List RenderedItem :=
  (if r.success then (successSections r).map RenderedItem.sec
   else [RenderedItem.failureBanner r.message]) ++
  r.logs.map RenderedItem.logLine

/-- Whether a section is the accuracy-explanation section. -/
def isExplanationSec : ResultSection → Bool
  | .explanation _ => true
  | _ => false

/-- Whether a section is the feature-importance section. -/
def isImportanceSec : ResultSection → Bool
  | .importanceSec _ => true
  | _ => false

/-- Whether a section is the confusion-matrix section. -/
def isConfusionSec : ResultSection → Bool
  | .confusionSec _ => true
  | _ => false

/-- Whether the results page contains the accuracy-explanation section. -/
def hasExplanationSection (r : PipelineResult) : Bool :=
  (successSections r).any isExplanationSec

/-- Whether the results page contains the feature-importance section. -/
def hasImportanceSection (r : PipelineResult) : Bool :=
  (successSections r).any isImportanceSec

/-- Whether the results page contains the confusion-matrix section. -/
def hasConfusionSection (r : PipelineResult) : Bool :=
  (successSections r).any isConfusionSec

/-! ## Concrete values used to exercise the definitions -/

/-- A concrete feature-importance list with eleven entries whose largest
importance comes last, past the display cut-off. -/
def exImportances : List (String × ℚ) :=
  [("f0", 2), ("f1", 3), ("f2", 1), ("f3", 4), ("f4", 2), ("f5", 5),
   ("f6", 3), ("f7", 2), ("f8", 1), ("f9", 4), ("f10", 11)]

/-- A concrete two-feature correlation payload. -/
def exCorr : Correlations :=
  { labels := ["a", "b"], data := [[1, 0], [0, 1]] }

/-- A concrete nine-feature correlation payload, past the heatmap cut-off. -/
def exCorrBig : Correlations :=
  { labels := ["a", "b", "c", "d", "e", "f", "g", "h", "i"], data := [] }

/-- A successful result whose metrics contain the key `Accuracy` bound to the
empty string (present but falsy). -/
def exEmptyAccuracyResult : PipelineResult :=
  { success := true, message := "ok",
    metrics := [("Accuracy", .str "")], logs := [] }

/-! ## Helper lemmas -/

theorem isPreprocessing_excludes {t : StepType}
    (h : t.isPreprocessingStep = true) :
    (t == StepType.train_test_split) = false ∧ t.isModelStep = false := by
  cases t <;> simp_all [StepType.isPreprocessingStep, StepType.isModelStep]

theorem modelState_isModelStep (ops : List ModelOp) (s : Option PipelineStep)
    (h : ∀ m, s = some m → m.type.isModelStep = true) :
    ∀ m, ops.foldl applyModelOp s = some m → m.type.isModelStep = true := by
  induction ops generalizing s with
  | nil => exact h
  | cons op rest ih =>
      refine ih (applyModelOp s op) ?_
      intro m' hm'
      cases op with
      | select t =>
          simp only [applyModelOp, Option.some.injEq] at hm'
          rw [← hm']
          cases t <;> rfl
      | updateParam k v =>
          cases s with
          | none => simp [applyModelOp, updateModelParam] at hm'
          | some m0 =>
              simp only [applyModelOp, updateModelParam, Option.some.injEq] at hm'
              rw [← hm']
              exact h m0 rfl
      | changeDataset => simp [applyModelOp] at hm'

theorem preprocState_allPreprocessing (ops : List PreprocOp)
    (s : List PipelineStep)
    (h : ∀ st ∈ s, st.type.isPreprocessingStep = true) :
    ∀ st ∈ ops.foldl applyPreprocOp s, st.type.isPreprocessingStep = true := by
  induction ops generalizing s with
  | nil => exact h
  | cons op rest ih =>
      refine ih (applyPreprocOp s op) ?_
      intro st hst
      cases op with
      | add i t =>
          simp only [applyPreprocOp, addPreprocessingStep, List.mem_append,
            List.mem_singleton] at hst
          rcases hst with hst | hst
          · exact h st hst
          · rw [hst]
            cases t <;> rfl
      | remove i =>
          simp only [applyPreprocOp, removePreprocessingStep,
            List.mem_filter] at hst
          exact h st hst.1
      | update i k v =>
          simp only [applyPreprocOp, updatePreprocessingParam,
            List.mem_map] at hst
          rcases hst with ⟨st0, hst0, heq⟩
          have hty : st.type = st0.type := by
            rw [← heq]
            split <;> rfl
          rw [hty]
          exact h st0 hst0
      | changeDataset => simp [applyPreprocOp] at hst

theorem le_foldl_max (xs : List ℚ) (a : ℚ) :
    a ≤ xs.foldl max a ∧ ∀ y ∈ xs, y ≤ xs.foldl max a := by
  induction xs generalizing a with
  | nil =>
      refine ⟨le_refl a, ?_⟩
      intro y hy
      simp at hy
  | cons x xs ih =>
      constructor
      · exact le_trans (le_max_left a x) (ih (max a x)).1
      · intro y hy
        rcases List.mem_cons.mp hy with h | h
        · rw [h]
          exact le_trans (le_max_right a x) (ih (max a x)).1
        · exact (ih (max a x)).2 y h

theorem wizardFold_bounds (evs : List WizardEvent) (s : Nat)
    (h1 : 1 ≤ s) (h2 : s ≤ 5) :
    1 ≤ evs.foldl wizardTransition s ∧ evs.foldl wizardTransition s ≤ 5 := by
  induction evs generalizing s with
  | nil => exact ⟨h1, h2⟩
  | cons e rest ih =>
      refine ih (wizardTransition s e) ?_ ?_ <;>
        cases e <;>
          simp only [wizardTransition, handleNextStep, handleBackStep,
            WIZARD_STEPS, List.length_cons, List.length_nil] <;>
          first
            | omega
            | (split <;> omega)

theorem truthyChunk_any_eq (v : Option MetricValue)
    (mk : MetricValue → ResultSection) (p : ResultSection → Bool)
    (hp : ∀ w, p (mk w) = true) :
    (truthyChunk v mk).any p = jsTruthyOpt v := by
  cases v with
  | none => rfl
  | some w =>
      simp only [truthyChunk, jsTruthyOpt]
      by_cases hw : w.truthy
      · simp [hw, hp]
      · simp [hw]

theorem truthyChunk_any_false (v : Option MetricValue)
    (mk : MetricValue → ResultSection) (p : ResultSection → Bool)
    (hp : ∀ w, p (mk w) = false) :
    (truthyChunk v mk).any p = false := by
  cases v with
  | none => rfl
  | some w =>
      simp only [truthyChunk]
      by_cases hw : w.truthy
      · simp [hw, hp]
      · simp [hw]

theorem downloadChunk_any_false (mp : Option String) (p : ResultSection → Bool)
    (hp : ∀ s, p (ResultSection.downloadBtn s) = false) :
    (downloadChunk mp).any p = false := by
  cases mp with
  | none => rfl
  | some s =>
      simp only [downloadChunk]
      by_cases hs : s.isEmpty
      · simp [hs]
      · simp [hs, hp]

/-! ## Claim theorems -/

/-- C3 counterexample: the step-type universe is partitioned by the spec into
preprocessing, split and model kinds, but the template the code declares for
`train_test_split` carries the category `preprocessing`, not a split kind, so
the declared kinds do not agree with the partition. -/
theorem stepTemplateKind_cex :
    (STEP_TEMPLATES StepType.train_test_split).category
      = TemplateCategory.preprocessing
    ∧ specKind StepType.train_test_split = StepKind.split
    ∧ (kindOfCategory (STEP_TEMPLATES StepType.train_test_split).category
        == specKind StepType.train_test_split) = false := by
  exact ⟨rfl, rfl, rfl⟩

/-- C3 (amended): the step-type universe is a closed six-element set that the
spec partitions into preprocessing, split and model kinds; the step templates
declare only the two categories preprocessing and model, which agree with the
partition on every preprocessing and model step type, while `train_test_split`
(of kind split) is declared under the preprocessing category. -/
theorem stepTemplateKind_partition :
    (∀ t : StepType, t ∈ allStepTypes)
    ∧ (∀ t : StepType,
        specKind t = StepKind.preprocessing ∨ specKind t = StepKind.split
          ∨ specKind t = StepKind.model)
    ∧ kindOfCategory (STEP_TEMPLATES StepType.standard_scaler).category
        = specKind StepType.standard_scaler
    ∧ kindOfCategory (STEP_TEMPLATES StepType.min_max_scaler).category
        = specKind StepType.min_max_scaler
    ∧ kindOfCategory (STEP_TEMPLATES StepType.drop_nulls).category
        = specKind StepType.drop_nulls
    ∧ kindOfCategory (STEP_TEMPLATES StepType.logistic_regression).category
        = specKind StepType.logistic_regression
    ∧ kindOfCategory (STEP_TEMPLATES StepType.decision_tree_classifier).category
        = specKind StepType.decision_tree_classifier
    ∧ (STEP_TEMPLATES StepType.train_test_split).category
        = TemplateCategory.preprocessing
    ∧ specKind StepType.train_test_split = StepKind.split := by
  refine ⟨?_, ?_, rfl, rfl, rfl, rfl, rfl, rfl, rfl⟩
  · intro t
    cases t <;> simp [allStepTypes]
  · intro t
    cases t <;> simp [specKind]

/-- C4: the `train_test_split` template carries the default `test_size = 0.2`,
the `testSize` state cell is initialized to 0.2 (so the split step first
submitted carries `test_size = 0.2`), and the `min_max_scaler` template carries
the default range `[0,1]` as its `feature_range` parameter, encoded as the
"min,max" pair `"0,1"`. -/
theorem defaultParams_match :
    (STEP_TEMPLATES StepType.train_test_split).defaultParams
      = [("test_size", ParamValue.num 0.2)]
    ∧ initialTestSize = 0.2
    ∧ splitStep initialTestSize
      = { id := "split", type := StepType.train_test_split,
          params := [("test_size", ParamValue.num 0.2)] }
    ∧ (STEP_TEMPLATES StepType.min_max_scaler).defaultParams
      = [("feature_range", ParamValue.str "0,1")]
    ∧ addPreprocessingStep [] "id1" PreprocessingType.min_max_scaler
      = [{ id := "id1", type := StepType.min_max_scaler,
           params := [("feature_range", ParamValue.str "0,1")] }] := by
  exact ⟨rfl, rfl, rfl, rfl, rfl⟩

/-- C9: from the initial state 1, every sequence of Next/Back/Start Over
events keeps `currentStep` between 1 and the number of wizard steps (5):
`handleNext` increments only below `WIZARD_STEPS.length`, `handleBack`
decrements only above 1, and Start Over resets to 1. -/
theorem wizard_currentStep_bounds :
    (∀ evs : List WizardEvent,
      1 ≤ wizardAfter evs ∧ wizardAfter evs ≤ WIZARD_STEPS.length)
    ∧ handleNextStep WIZARD_STEPS.length = WIZARD_STEPS.length
    ∧ handleBackStep 1 = 1
    ∧ (∀ cur : Nat, wizardTransition cur WizardEvent.startOver = 1) := by
  refine ⟨?_, by decide, by decide, fun cur => rfl⟩
  intro evs
  have h := wizardFold_bounds evs 1 (le_refl 1) (by omega)
  simpa [wizardAfter, initialCurrentStep, WIZARD_STEPS] using h

/-- C1: whatever sequence of add/remove/edit/reset actions produced the
`preprocessingSteps` and `selectedModel` state, the step list `runPipeline`
submits is the preprocessing steps (each of a preprocessing type), followed by
exactly one `train_test_split` step, followed by exactly one model step; in
particular the split step precedes the model step. -/
theorem runPipeline_submitted_shape (pOps : List PreprocOp)
    (mOps : List ModelOp) (ts : ℚ) (m : PipelineStep)
    (hm : modelStateAfter mOps = some m) :
    (∀ st ∈ preprocStateAfter pOps, st.type.isPreprocessingStep = true)
    ∧ fullSteps (preprocStateAfter pOps) ts m
        = preprocStateAfter pOps ++ [splitStep ts, m]
    ∧ (splitStep ts).type = StepType.train_test_split
    ∧ m.type.isModelStep = true
    ∧ (fullSteps (preprocStateAfter pOps) ts m).countP
        (fun s => s.type == StepType.train_test_split) = 1
    ∧ (fullSteps (preprocStateAfter pOps) ts m).countP
        (fun s => s.type.isModelStep) = 1 := by
  have hpre := preprocState_allPreprocessing pOps []
    (by intro st hst; simp at hst)
  have hmodel := modelState_isModelStep mOps none
    (by intro m' hm'; simp at hm') m hm
  have hsplitfree :
      ∀ st ∈ preprocStateAfter pOps,
        (st.type == StepType.train_test_split) = false ∧
          st.type.isModelStep = false :=
    fun st hst => isPreprocessing_excludes (hpre st hst)
  refine ⟨hpre, rfl, rfl, hmodel, ?_, ?_⟩
  · rw [fullSteps, List.countP_append]
    have h0 : (preprocStateAfter pOps).countP
        (fun s => s.type == StepType.train_test_split) = 0 := by
      rw [List.countP_eq_zero]
      intro st hst
      simp [(hsplitfree st hst).1]
    rw [h0]
    have hm0 : (m.type == StepType.train_test_split) = false := by
      cases hty : m.type <;> simp_all [StepType.isModelStep]
    simp [List.countP_cons, splitStep, hm0]
  · rw [fullSteps, List.countP_append]
    have h0 : (preprocStateAfter pOps).countP
        (fun s => s.type.isModelStep) = 0 := by
      rw [List.countP_eq_zero]
      intro st hst
      simp [(hsplitfree st hst).2]
    rw [h0]
    have h1 : (splitStep ts).type.isModelStep = false := rfl
    simp [List.countP_cons, h1, hmodel]

/-- C1 witness: a concrete run with one added scaler and a selected logistic
regression produces the shape the theorem describes. -/
theorem runPipeline_submitted_shape_witness :
    fullSteps
        (preprocStateAfter [PreprocOp.add "a" PreprocessingType.standard_scaler])
        initialTestSize (selectModel ModelType.logistic_regression)
      = preprocStateAfter [PreprocOp.add "a" PreprocessingType.standard_scaler]
          ++ [splitStep initialTestSize, selectModel ModelType.logistic_regression]
    ∧ (selectModel ModelType.logistic_regression).type.isModelStep = true := by
  have h := runPipeline_submitted_shape
    [PreprocOp.add "a" PreprocessingType.standard_scaler]
    [ModelOp.select ModelType.logistic_regression]
    initialTestSize (selectModel ModelType.logistic_regression) rfl
  exact ⟨h.2.1, h.2.2.2.1⟩

/-- C2: when the run fails — the request threw, the status was not ok, or the
server body reports failure — the result shown has `success = false`, its
message is the short cause (the literal fallback for request errors, the
server's message otherwise), and the rendered page is the failure banner with
that message followed by every accumulated log line. -/
theorem pipelineFailure_display (o : FetchOutcome)
    (hfail : pipelineRunFailed o = true) :
    (runPipelineResult o).success = false
    ∧ (isRequestError o = true →
        (runPipelineResult o).message = "Failed to execute pipeline")
    ∧ (∀ b, o = FetchOutcome.ok b →
        (runPipelineResult o).message = b.message)
    ∧ renderResults (runPipelineResult o)
        = RenderedItem.failureBanner (runPipelineResult o).message
            :: (runPipelineResult o).logs.map RenderedItem.logLine := by
  cases o with
  | ok b =>
      simp only [pipelineRunFailed, Bool.not_eq_true'] at hfail
      refine ⟨hfail, ?_, ?_, ?_⟩
      · intro h
        simp [isRequestError] at h
      · intro b' hb'
        cases hb'
        rfl
      · simp [renderResults, runPipelineResult, hfail]
  | httpError st =>
      refine ⟨rfl, fun _ => rfl, ?_, ?_⟩
      · intro b hb
        simp at hb
      · simp [renderResults, runPipelineResult]
  | networkError msg =>
      refine ⟨rfl, fun _ => rfl, ?_, ?_⟩
      · intro b hb
        simp at hb
      · simp [renderResults, runPipelineResult]

/-- C2 witness: a thrown fetch error yields a failed result rendered as the
failure banner plus the single error log line. -/
theorem pipelineFailure_display_witness :
    (runPipelineResult (FetchOutcome.networkError "boom")).success = false
    ∧ renderResults (runPipelineResult (FetchOutcome.networkError "boom"))
        = [RenderedItem.failureBanner "Failed to execute pipeline",
           RenderedItem.logLine "Error: boom"] := by
  have h := pipelineFailure_display (FetchOutcome.networkError "boom") rfl
  refine ⟨h.1, ?_⟩
  rw [h.2.2.2]
  rfl

/-- C5: the feature-importance block displays at most the first 10 entries of
the full list (a truncation, leaving the list itself intact), while the
maximum used to scale every displayed bar is `Math.max` over the FULL list, so
it dominates every importance in the list, displayed or not. -/
theorem featureImportance_display (l : List (String × ℚ)) :
    (renderedImportanceRows l).length ≤ 10
    ∧ renderedImportanceRows l
        = (l.map (fun f => (f.1, f.2, importanceMaxVal l))).take 10
    ∧ (∀ f, f ∈ l → ∀ m, importanceMaxVal l = some m → f.2 ≤ m) := by
  refine ⟨?_, ?_, ?_⟩
  · simp only [renderedImportanceRows, List.length_map, List.length_take]
    omega
  · rw [renderedImportanceRows, List.map_take]
  · intro f hf m hm
    have hmem : f.2 ∈ l.map (fun p => p.2) :=
      List.mem_map_of_mem (fun p => p.2) hf
    rw [importanceMaxVal] at hm
    cases hl : l.map (fun p => p.2) with
    | nil =>
        rw [hl] at hmem
        simp at hmem
    | cons z zs =>
        rw [hl] at hm hmem
        simp only [jsMathMax, Option.some.injEq] at hm
        rw [← hm]
        rcases List.mem_cons.mp hmem with h | h
        · rw [h]
          exact (le_foldl_max zs z).1
        · exact (le_foldl_max zs z).2 _ h

/-- C5 witness: on an eleven-entry list whose maximum sits past the display
cut-off, the display keeps at most ten rows and the scale maximum (11) still
bounds the first entry. -/
theorem featureImportance_display_witness :
    (renderedImportanceRows exImportances).length ≤ 10
    ∧ ((("f0" : String), (2 : ℚ)) : String × ℚ).2 ≤ 11 := by
  have h := featureImportance_display exImportances
  exact ⟨h.1, h.2.2 ("f0", 2) (by decide) 11 (by decide)⟩

/-- C6: when the correlation labels number more than 8 the card keeps its
heading (the metadata with its labels is untouched) but shows the notice
`Too many features.` instead of the grid; with 8 or fewer labels the card
shows the grid with one column per label containing every value of the
matrix, which for a labels-by-labels matrix is the full square of cells. -/
theorem correlationHeatmap_render (c : Correlations) :
    (8 < c.labels.length →
      renderCorrSection c
        = { heading := "Correlation Heatmap",
            view := CorrView.tooMany "Too many features." })
    ∧ (c.labels.length ≤ 8 →
        renderCorrSection c
          = { heading := "Correlation Heatmap",
              view := CorrView.grid c.labels.length c.data.flatten })
    ∧ (c.data.length = c.labels.length →
        (∀ row ∈ c.data, row.length = c.labels.length) →
        c.data.flatten.length = c.labels.length * c.labels.length) := by
  refine ⟨?_, ?_, ?_⟩
  · intro h
    simp [renderCorrSection, h]
  · intro h
    simp [renderCorrSection, Nat.not_lt.mpr h]
  · intro hlen hrows
    rw [List.length_flatten]
    have hmap : c.data.map List.length
        = List.replicate c.data.length c.labels.length := by
      rw [List.eq_replicate_iff]
      refine ⟨by simp, ?_⟩
      intro b hb
      rcases List.mem_map.mp hb with ⟨row, hrow, hrb⟩
      rw [← hrb]
      exact hrows row hrow
    rw [hmap, List.sum_replicate, smul_eq_mul, hlen]

/-- C6 witness: a two-label payload renders the full 2-by-2 grid, a nine-label
payload renders the notice. -/
theorem correlationHeatmap_render_witness :
    renderCorrSection exCorr
      = { heading := "Correlation Heatmap",
          view := CorrView.grid 2 [1, 0, 0, 1] }
    ∧ renderCorrSection exCorrBig
      = { heading := "Correlation Heatmap",
          view := CorrView.tooMany "Too many features." }
    ∧ exCorr.data.flatten.length = 2 * 2 := by
  have h1 := correlationHeatmap_render exCorr
  have h2 := correlationHeatmap_render exCorrBig
  refine ⟨?_, h2.1 (by decide), ?_⟩
  · rw [h1.2.1 (by decide)]
    rfl
  · have h := h1.2.2 rfl (by decide)
    simpa using h

/-- C7: a preview row passes through the profiler's serialization and the
table's `val?.toString() ?? ''` cell renderer in column order: missing and
non-finite cells come out as the empty string, finite values as their string
conversion, text as itself, with the header listing the keys in the same
order. -/
theorem previewTable_render (row : List (String × RawCell)) :
    renderRow (serializeRow row)
      = row.map (fun p => renderCell (serializeCell p.2))
    ∧ renderHeader (serializeRow row) = row.map (fun p => p.1)
    ∧ (renderRow (serializeRow row)).length = row.length
    ∧ renderCell (serializeCell RawCell.missing) = ""
    ∧ renderCell (serializeCell RawCell.nonfinite) = ""
    ∧ (∀ q : ℚ, renderCell (serializeCell (RawCell.finite q)) = toString q)
    ∧ (∀ s : String, renderCell (serializeCell (RawCell.text s)) = s) := by
  refine ⟨?_, ?_, ?_, rfl, rfl, fun q => rfl, fun s => rfl⟩
  · simp [renderRow, serializeRow]
  · simp [renderHeader, serializeRow]
  · simp [renderRow, serializeRow]

/-- C8 counterexample: in a successful result whose metrics bind `Accuracy` to
the empty string, the key is present yet the explanation section is not
rendered — the guard is JavaScript truthiness, not key presence. -/
theorem successMetricSections_cex :
    exEmptyAccuracyResult.success = true
    ∧ getMetric exEmptyAccuracyResult.metrics "Accuracy"
        = some (MetricValue.str "")
    ∧ hasExplanationSection exEmptyAccuracyResult = false := by
  exact ⟨rfl, rfl, rfl⟩

/-- C8 (amended): the results view is a total function of the result — any
successful result renders without error — and each of the explanation,
feature-importance and confusion-matrix sections is rendered exactly when its
metric key is present with a JavaScript-truthy value; an absent key is falsy,
so its section is simply omitted — a valid empty state, not an error. -/
theorem successMetricSections_guards (r : PipelineResult) :
    hasExplanationSection r = jsTruthyOpt (getMetric r.metrics "Accuracy")
    ∧ hasImportanceSection r
        = jsTruthyOpt (getMetric r.metrics "feature_importance")
    ∧ hasConfusionSection r
        = jsTruthyOpt (getMetric r.metrics "confusion_matrix")
    ∧ jsTruthyOpt none = false
    ∧ renderResults r
        = (if r.success then (successSections r).map RenderedItem.sec
           else [RenderedItem.failureBanner r.message])
            ++ r.logs.map RenderedItem.logLine := by
  refine ⟨?_, ?_, ?_, rfl, rfl⟩
  · rw [hasExplanationSection, successSections]
    simp only [List.any_append, List.any_cons, List.any_nil]
    rw [truthyChunk_any_eq _ _ _ (fun w => rfl),
      truthyChunk_any_false _ ResultSection.importanceSec _ (fun w => rfl),
      truthyChunk_any_false _ ResultSection.confusionSec _ (fun w => rfl),
      downloadChunk_any_false _ _ (fun s => rfl)]
    simp [isExplanationSec]
  · rw [hasImportanceSection, successSections]
    simp only [List.any_append, List.any_cons, List.any_nil]
    rw [truthyChunk_any_eq _ ResultSection.importanceSec _ (fun w => rfl),
      truthyChunk_any_false _ ResultSection.explanation _ (fun w => rfl),
      truthyChunk_any_false _ ResultSection.confusionSec _ (fun w => rfl),
      downloadChunk_any_false _ _ (fun s => rfl)]
    simp [isImportanceSec]
  · rw [hasConfusionSection, successSections]
    simp only [List.any_append, List.any_cons, List.any_nil]
    rw [truthyChunk_any_eq _ ResultSection.confusionSec _ (fun w => rfl),
      truthyChunk_any_false _ ResultSection.explanation _ (fun w => rfl),
      truthyChunk_any_false _ ResultSection.importanceSec _ (fun w => rfl),
      downloadChunk_any_false _ _ (fun s => rfl)]
    simp [isConfusionSec]

/-- C10: the grade of `ResultExplanation` is a total three-way classification
of the parsed percentage: `Excellent` exactly when the parsed value is at
least 90 (including a parsed infinity), `Good` exactly when it is at least 70
and below 90, and `Needs Improvement` in every other case, including when the
string does not parse to a number. -/
theorem resultExplanation_grading (s : String) :
    (resultExplanationGrade s = "Excellent" ↔
      jsParseFloat (replacePercent s) = some JsNum.posInf
      ∨ ∃ q : ℚ,
          jsParseFloat (replacePercent s) = some (JsNum.finite q) ∧ 90 ≤ q)
    ∧ (resultExplanationGrade s = "Good" ↔
      ∃ q : ℚ,
        jsParseFloat (replacePercent s) = some (JsNum.finite q)
          ∧ 70 ≤ q ∧ q < 90)
    ∧ (resultExplanationGrade s = "Needs Improvement" ↔
      jsParseFloat (replacePercent s) = none
      ∨ jsParseFloat (replacePercent s) = some JsNum.negInf
      ∨ ∃ q : ℚ,
          jsParseFloat (replacePercent s) = some (JsNum.finite q) ∧ q < 70)
    ∧ (resultExplanationGrade s = "Excellent"
        ∨ resultExplanationGrade s = "Good"
        ∨ resultExplanationGrade s = "Needs Improvement") := by
  have hEG : ("Excellent" : String) ≠ "Good" := by decide
  have hEN : ("Excellent" : String) ≠ "Needs Improvement" := by decide
  have hGE : ("Good" : String) ≠ "Excellent" := by decide
  have hGN : ("Good" : String) ≠ "Needs Improvement" := by decide
  have hNE : ("Needs Improvement" : String) ≠ "Excellent" := by decide
  have hNG : ("Needs Improvement" : String) ≠ "Good" := by decide
  rw [resultExplanationGrade]
  generalize jsParseFloat (replacePercent s) = p
  rcases p with _ | j
  · simp [jsGe, hNE.symm, hNG.symm]
  · rcases j with _ | _ | q
    · simp [jsGe, hEG, hEN]
    · simp [jsGe, hNE.symm, hNG.symm]
    · simp only [jsGe]
      by_cases h90 : (90 : ℚ) ≤ q
      · rw [if_pos (by simpa using h90)]
        refine ⟨?_, ?_, ?_, Or.inl rfl⟩
        · simp only [true_iff]
          exact Or.inr ⟨q, rfl, h90⟩
        · simp only [iff_iff_implies_and_implies]
          refine ⟨fun h => absurd h hEG, ?_⟩
          rintro ⟨q', hq', _, hlt⟩
          cases hq'
          exact absurd h90 (not_le.mpr hlt)
        · simp only [iff_iff_implies_and_implies]
          refine ⟨fun h => absurd h hEN, ?_⟩
          rintro (h | h | ⟨q', hq', hlt⟩)
          · cases h
          · cases h
          · cases hq'
            exact absurd h90 (not_le.mpr (lt_of_lt_of_le hlt (by norm_num)))
      · rw [if_neg (by simpa using h90)]
        by_cases h70 : (70 : ℚ) ≤ q
        · rw [if_pos (by simpa using h70)]
          refine ⟨?_, ?_, ?_, Or.inr (Or.inl rfl)⟩
          · simp only [iff_iff_implies_and_implies]
            refine ⟨fun h => absurd h hGE, ?_⟩
            rintro (h | ⟨q', hq', hge⟩)
            · cases h
            · cases hq'
              exact absurd hge h90
          · simp only [true_iff]
            exact ⟨q, rfl, h70, not_le.mp h90⟩
          · simp only [iff_iff_implies_and_implies]
            refine ⟨fun h => absurd h hGN, ?_⟩
            rintro (h | h | ⟨q', hq', hlt⟩)
            · cases h
            · cases h
            · cases hq'
              exact absurd h70 (not_le.mpr hlt)
        · rw [if_neg (by simpa using h70)]
          refine ⟨?_, ?_, ?_, Or.inr (Or.inr rfl)⟩
          · simp only [iff_iff_implies_and_implies]
            refine ⟨fun h => absurd h hNE, ?_⟩
            rintro (h | ⟨q', hq', hge⟩)
            · cases h
            · cases hq'
              exact absurd (le_trans (by norm_num) hge) h70
          · simp only [iff_iff_implies_and_implies]
            refine ⟨fun h => absurd h hNG, ?_⟩
            rintro ⟨q', hq', hge, _⟩
            cases hq'
            exact absurd hge h70
          · simp only [true_iff]
            exact Or.inr (Or.inr ⟨q, rfl, not_le.mp h70⟩)

end MLBuilder
